import Mathlib

set_option maxHeartbeats 1000000
set_option maxRecDepth 100000

/-!
Verification development for the libwave PCM WAV I/O library.
The repository ships only the public interface `wav.h`; the behavior of the
operations is modelled from the specification (chunk parsing, container
writing, G.711 companding, sample codec and the stream-session state machine).
-/

/-- Error codes, from the `WavErr` enum of `wav.h` (same order). -/
inductive WavErr where
  | ok
  | nomem
  | os
  | format
  | mode
  | param
deriving DecidableEq, Repr

/-- Open modes of a stream session (read-only or write-only, per the spec). -/
inductive WavMode where
  | read
  | write
deriving DecidableEq, Repr

/-- Modelled from the spec: the Header Model of a WAV session, holding the
`fmt ` chunk fields; block align and byte rate are derived, not stored. -/
structure WavHeader where
  format : Nat
  numChannels : Nat
  sampleRate : Nat
  sampleSize : Nat
  validBits : Nat
  channelMask : Nat
  subFormat : Nat
deriving DecidableEq, Repr

/-- Modelled from the spec: `block_align = channels * bytes_per_sample`. -/
def blockAlign (h : WavHeader) : Nat := h.numChannels * h.sampleSize

/-- Modelled from the spec: `byte_rate = sample_rate * block_align`. -/
def byteRate (h : WavHeader) : Nat := h.sampleRate * blockAlign h

/-- Modelled from the spec: the seekable byte source backing a read session.
`bytes` is the file content; `ioFailAt = some k` means the underlying device
fails whenever a read touches byte index `k` or beyond (within the file). -/
structure ByteSrc where
  bytes : List Nat
  ioFailAt : Option Nat
deriving DecidableEq, Repr

/-- Bytes `[off, off+n)` of a list. -/
def sliceBytes (L : List Nat) (off n : Nat) : List Nat := (L.drop off).take n

/-- Modelled from the spec: one underlying read of `n` bytes at offset `off`.
A read running past the end of the data is a malformed/truncated container
(`WAV_ERR_FORMAT` at parse time); a read touching the failing region of the
device is an I/O failure (`WAV_ERR_OS`). -/
def readAt (s : ByteSrc) (off n : Nat) : Except WavErr (List Nat) :=
  match s.ioFailAt with
  | none =>
      if s.bytes.length < off + n then .error .format
      else .ok (sliceBytes s.bytes off n)
  | some k =>
      if s.bytes.length < off + n then
        (if k < s.bytes.length then .error .os else .error .format)
      else if k < off + n then .error .os
      else .ok (sliceBytes s.bytes off n)

/-- Little-endian value of a byte list (least significant byte first). -/
def leNat (bs : List Nat) : Nat := bs.foldr (fun b acc => b + 256 * acc) 0

/-- `n`-byte little-endian encoding of a value. -/
def leBytes : Nat → Nat → List Nat
  | 0, _ => []
  | n + 1, v => v % 256 :: leBytes n (v / 256)

/-- Little-endian 16-bit field at byte offset `i`. -/
def u16At (bs : List Nat) (i : Nat) : Nat := leNat ((bs.drop i).take 2)

/-- Little-endian 32-bit field at byte offset `i`. -/
def u32At (bs : List Nat) (i : Nat) : Nat := leNat ((bs.drop i).take 4)

/-- The ASCII bytes of the `RIFF` tag. -/
def riffChars : List Nat := [0x52, 0x49, 0x46, 0x46]

/-- The ASCII bytes of the `WAVE` tag. -/
def waveChars : List Nat := [0x57, 0x41, 0x56, 0x45]

/-- The ASCII bytes of the `fmt ` tag. -/
def fmtChars : List Nat := [0x66, 0x6d, 0x74, 0x20]

/-- The ASCII bytes of the `data` tag. -/
def dataChars : List Nat := [0x64, 0x61, 0x74, 0x61]

/-- The four non-extensible format codes of `wav.h`
(PCM, IEEE float, A-law, mu-law). -/
def knownBase (c : Nat) : Bool := c == 1 || c == 3 || c == 6 || c == 7

/-- Modelled from the spec: scan chunk headers (4-byte tag + 4-byte length)
from offset `off`, skipping unknown chunk bodies rounded to an even boundary,
until the wanted tag is found; returns the body offset and declared length.
Running out of file is a missing chunk (`WAV_ERR_FORMAT`). -/
def findChunk (s : ByteSrc) (tag : List Nat) (off : Nat) : Nat → Except WavErr (Nat × Nat)
  | 0 => .error .format
  | fuel + 1 =>
    match readAt s off 8 with
    | .error e => .error e
    | .ok hdr =>
      let t := hdr.take 4
      let len := leNat (hdr.drop 4)
      if t = tag then .ok (off + 8, len)
      else findChunk s tag (off + 8 + len + len % 2) fuel

/-- Result of a successful container parse. -/
structure ParsedWav where
  header : WavHeader
  dataOff : Nat
  dataLen : Nat
deriving DecidableEq, Repr

/-- Modelled from the spec: the Container Parser.  Verifies the `RIFF` tag,
reads the total-size field, verifies the `WAVE` tag, locates the `fmt ` chunk,
parses its body (plus the extensible sub-header when the format code is
0xfffe), validates the format code, then locates the `data` chunk. -/
def parseWav (s : ByteSrc) : Except WavErr ParsedWav :=
  match readAt s 0 4 with
  | .error e => .error e
  | .ok riff =>
    if riff ≠ riffChars then .error .format else
    match readAt s 4 4 with
    | .error e => .error e
    | .ok _ =>
      match readAt s 8 4 with
      | .error e => .error e
      | .ok wave =>
        if wave ≠ waveChars then .error .format else
        match findChunk s fmtChars 12 (s.bytes.length + 1) with
        | .error e => .error e
        | .ok (fOff, fLen) =>
          if fLen < 16 then .error .format else
          match readAt s fOff 16 with
          | .error e => .error e
          | .ok body =>
            let fmtCode := u16At body 0
            if fmtCode = 0xfffe then
              if fLen < 40 then .error .format else
              match readAt s (fOff + 16) 24 with
              | .error e => .error e
              | .ok ext =>
                match findChunk s dataChars (fOff + fLen + fLen % 2) (s.bytes.length + 1) with
                | .error e => .error e
                | .ok (dOff, dLen) =>
                  .ok ⟨⟨fmtCode, u16At body 2, u32At body 4, u16At body 14 / 8,
                        u16At ext 2, u32At ext 4, u16At ext 8⟩, dOff, dLen⟩
            else
              if ¬ knownBase fmtCode then .error .format else
              match findChunk s dataChars (fOff + fLen + fLen % 2) (s.bytes.length + 1) with
              | .error e => .error e
              | .ok (dOff, dLen) =>
                .ok ⟨⟨fmtCode, u16At body 2, u32At body 4, u16At body 14 / 8,
                      u16At body 14, 0, 0⟩, dOff, dLen⟩

/-- Spec wording: the RIFF tag mismatches (or the file is too short to hold
it); an underlying I/O failure is not a tag mismatch. -/
def tagBad (s : ByteSrc) (off : Nat) (tag : List Nat) : Bool :=
  match readAt s off 4 with
  | .ok b => b ≠ tag
  | .error .os => false
  | .error _ => true

/-- Spec failure case: the `RIFF` tag mismatches. -/
def riffMismatch (s : ByteSrc) : Bool := tagBad s 0 riffChars

/-- Spec failure case: the `WAVE` tag mismatches. -/
def waveMismatch (s : ByteSrc) : Bool := tagBad s 8 waveChars

/-- The chunk scan locating `fmt `, as the parser performs it. -/
def fmtChunk (s : ByteSrc) : Except WavErr (Nat × Nat) :=
  findChunk s fmtChars 12 (s.bytes.length + 1)

/-- Spec failure case: the `fmt ` chunk is absent. -/
def fmtMissing (s : ByteSrc) : Bool :=
  match fmtChunk s with
  | .error .format => true
  | _ => false

/-- Spec failure case: the `fmt ` body is shorter than required for the
declared format (base 16 bytes; 40 bytes when extensible), including a file
truncated inside the body. -/
def fmtShort (s : ByteSrc) : Bool :=
  match fmtChunk s with
  | .ok (off, len) =>
      decide (len < 16) ||
      (match readAt s off 16 with
       | .error .format => true
       | .error _ => false
       | .ok body =>
          (u16At body 0 == 0xfffe) &&
            (decide (len < 40) ||
             (match readAt s (off + 16) 24 with
              | .error .format => true
              | _ => false)))
  | _ => false

/-- Spec failure case: the format code is unrecognized. -/
def fmtUnknown (s : ByteSrc) : Bool :=
  match fmtChunk s with
  | .ok (off, len) =>
      decide (16 ≤ len) &&
      (match readAt s off 16 with
       | .ok body => !(knownBase (u16At body 0) || u16At body 0 == 0xfffe)
       | .error _ => false)
  | _ => false

/-- Spec failure case: the `data` chunk is absent. -/
def dataMissing (s : ByteSrc) : Bool :=
  match fmtChunk s with
  | .ok (off, len) =>
      match findChunk s dataChars (off + len + len % 2) (s.bytes.length + 1) with
      | .error .format => true
      | _ => false
  | _ => false

/-- The disjunction of the spec's `WAV_ERR_FORMAT` parse-failure cases. -/
def formatBad (s : ByteSrc) : Bool :=
  riffMismatch s || waveMismatch s || fmtMissing s || fmtShort s ||
    fmtUnknown s || dataMissing s

/-- Modelled from the spec: ITU-T G.711 A-law expansion of a companded byte to
a 16-bit linear value, given as a two's-complement bit pattern. -/
def alawExpand (b : Nat) : Nat :=
  let a := (b % 256) ^^^ 0x55
  let seg := a / 16 % 8
  let man := a % 16
  let t := if seg = 0 then man * 16 + 8 else (man * 16 + 264) <<< (seg - 1)
  if 128 ≤ a then t else (65536 - t) % 65536

/-- Modelled from the spec: ITU-T G.711 A-law compression of a 16-bit linear
value (two's-complement bit pattern) to a companded byte. -/
def alawCompress (v : Nat) : Nat :=
  let pos := v % 65536 < 32768
  let m0 := if pos then v % 65536 else 65536 - v % 65536
  let m := min m0 32767
  let seg := if m < 256 then 0 else if m < 512 then 1 else if m < 1024 then 2
    else if m < 2048 then 3 else if m < 4096 then 4 else if m < 8192 then 5
    else if m < 16384 then 6 else 7
  let man := if seg = 0 then m / 16 % 16 else m / 2 ^ (seg + 3) % 16
  let u := seg * 16 + man
  (if pos then u + 128 else u) ^^^ 0x55

/-- Modelled from the spec: ITU-T G.711 mu-law expansion of a companded byte
to a 16-bit linear value, given as a two's-complement bit pattern. -/
def mulawExpand (b : Nat) : Nat :=
  let u := 255 - b % 256
  let seg := u / 16 % 8
  let man := u % 16
  let t := (man * 8 + 132) <<< seg
  if 128 ≤ u then (65536 - (t - 132)) % 65536 else t - 132

/-- Modelled from the spec: ITU-T G.711 mu-law compression of a 16-bit linear
value (two's-complement bit pattern) to a companded byte. -/
def mulawCompress (v : Nat) : Nat :=
  let pos := v % 65536 < 32768
  let x := if pos then v % 65536 else 65536 - v % 65536
  let val := min (x + 132) 32767
  let seg := if val < 256 then 0 else if val < 512 then 1 else if val < 1024 then 2
    else if val < 2048 then 3 else if val < 4096 then 4 else if val < 8192 then 5
    else if val < 16384 then 6 else 7
  let man := val / 2 ^ (seg + 3) % 16
  let u := seg * 16 + man
  255 - (if pos then u else u + 128)

/-- Modelled from the spec: the format/width combinations the Sample Codec
supports (integer PCM of 1-4 bytes, IEEE float of 4 or 8 bytes, A-law and
mu-law of 1 byte); the extensible format is outside this set. -/
def codecSupported (h : WavHeader) : Bool :=
  (h.format == 1 && (h.sampleSize == 1 || h.sampleSize == 2 ||
      h.sampleSize == 3 || h.sampleSize == 4)) ||
  (h.format == 3 && (h.sampleSize == 4 || h.sampleSize == 8)) ||
  ((h.format == 6 || h.format == 7) && h.sampleSize == 1)

/-- Modelled from the spec: encode one in-memory sample to its on-disk bytes.
PCM and IEEE float store the raw little-endian container bits; A-law and
mu-law compress a 16-bit linear value to one companded byte. -/
def encodeSample (fmt ss v : Nat) : List Nat :=
  if fmt == 6 then [alawCompress v]
  else if fmt == 7 then [mulawCompress v]
  else leBytes ss v

/-- Modelled from the spec: decode one on-disk sample to its in-memory value.
A-law and mu-law expand the companded byte to a 16-bit linear value. -/
def decodeSample (fmt _ss : Nat) (bs : List Nat) : Nat :=
  if fmt == 6 then alawExpand (bs.headD 0)
  else if fmt == 7 then mulawExpand (bs.headD 0)
  else leNat bs

/-- One interleaved on-disk frame built from per-channel buffers at index `i`. -/
def encodeFrame (fmt ss : Nat) (bufs : List (List Nat)) (i : Nat) : List Nat :=
  bufs.flatMap (fun b => encodeSample fmt ss (b.getD i 0))

/-- Modelled from the spec: interleave and encode `count` frames taken from
the per-channel buffers. -/
def encodeData (fmt ss : Nat) (bufs : List (List Nat)) (count : Nat) : List Nat :=
  (List.range count).flatMap (encodeFrame fmt ss bufs)

/-- The sample of frame `i`, channel `c` inside interleaved data bytes. -/
def decodeAt (fmt ss nch : Nat) (L : List Nat) (i c : Nat) : Nat :=
  decodeSample fmt ss (sliceBytes L ((i * nch + c) * ss) ss)

/-- Modelled from the spec: de-interleave and decode `count` frames of
interleaved data bytes into one buffer per channel. -/
def decodeData (fmt ss : Nat) (L : List Nat) (nch count : Nat) : List (List Nat) :=
  (List.range nch).map (fun c => (List.range count).map (fun i => decodeAt fmt ss nch L i c))

/-- Modelled from the spec: an in-memory sample value the codec can store
losslessly: raw container bits for PCM/float, and for A-law/mu-law a 16-bit
linear value that is already companding-quantized (in the expansion's image). -/
def sampleValid (fmt ss v : Nat) : Bool :=
  if fmt == 6 then (List.range 256).any (fun b => v == alawExpand b)
  else if fmt == 7 then (List.range 256).any (fun b => v == mulawExpand b)
  else v < 2 ^ (8 * ss)

/-- The `fmt ` chunk body emitted by the Container Writer. -/
def fmtBodyBytes (h : WavHeader) : List Nat :=
  leBytes 2 h.format ++ leBytes 2 h.numChannels ++ leBytes 4 h.sampleRate ++
    leBytes 4 (byteRate h) ++ leBytes 2 (blockAlign h) ++ leBytes 2 (8 * h.sampleSize)

/-- The extensible `fmt ` chunk body (base body, extension size 22, valid
bits, channel mask, and the 16-byte sub-format identifier whose first two
bytes are the true format code). -/
def extBodyBytes (h : WavHeader) : List Nat :=
  fmtBodyBytes h ++ leBytes 2 22 ++ leBytes 2 h.validBits ++
    leBytes 4 h.channelMask ++ leBytes 2 h.subFormat ++ List.replicate 14 0

/-- Modelled from the spec: the Container Writer's output around the sample
data: `RIFF` tag, total size, `WAVE` tag, `fmt ` chunk, `data` tag and
length.  The extensible sub-header is present iff the format is 0xfffe. -/
def headerBytes (h : WavHeader) (dataLen : Nat) : List Nat :=
  if h.format = 0xfffe then
    riffChars ++ leBytes 4 (60 + dataLen) ++ waveChars ++
      fmtChars ++ leBytes 4 40 ++ extBodyBytes h ++ dataChars ++ leBytes 4 dataLen
  else
    riffChars ++ leBytes 4 (36 + dataLen) ++ waveChars ++
      fmtChars ++ leBytes 4 16 ++ fmtBodyBytes h ++ dataChars ++ leBytes 4 dataLen

/-- Modelled from the spec: the Stream Session state behind the opaque
`WavFile*` handle: mode, Header Model, sample data, data-chunk byte length,
frame position, end-of-file flag, latched error and the header-frozen flag
set by the first successful sample write. -/
structure WavFile where
  mode : WavMode
  header : WavHeader
  dataBytes : List Nat
  dataLen : Nat
  pos : Nat
  eofFlag : Bool
  err : WavErr
  headerFrozen : Bool
deriving DecidableEq, Repr

/-- Modelled from the spec: default Header Model for a fresh write session
(16-bit stereo PCM at 44100 Hz). -/
def defaultHeader : WavHeader := ⟨1, 2, 44100, 2, 16, 0, 0⟩

/-- Modelled from the spec: the session object built by `wav_open` once the
allocation has succeeded: a write session starts from the default Header
Model; a read session runs the Container Parser and latches any failure. -/
def openedSession (src : ByteSrc) (m : WavMode) : WavFile :=
  match m with
  | .write => ⟨.write, defaultHeader, [], 0, 0, false, .ok, false⟩
  | .read =>
    match parseWav src with
    | .ok p =>
        ⟨.read, p.header, sliceBytes src.bytes p.dataOff p.dataLen, p.dataLen,
          0, false, .ok, false⟩
    | .error e => ⟨.read, defaultHeader, [], 0, 0, false, e, false⟩

/-- Modelled from the spec: `wav_open`.  Returns `none` exactly when the
allocation of the session object fails; otherwise a session is returned and
any parse failure of a read-mode open is latched in its error field. -/
def wav_open (allocOk : Bool) (src : ByteSrc) (m : WavMode) : Option WavFile :=
  if !allocOk then none else some (openedSession src m)

/-- `wav_errno`: the latched error code of the last operation. -/
def wav_errno (w : WavFile) : WavErr := w.err

/-- `wav_error`: non-zero iff an error occurred in the last operation. -/
def wav_error (w : WavFile) : Nat := if w.err = .ok then 0 else 1

/-- `wav_eof`: non-zero iff the end of the wav file is reached. -/
def wav_eof (w : WavFile) : Nat := if w.eofFlag then 1 else 0

/-- `wav_tell`: the current frame index. -/
def wav_tell (w : WavFile) : Nat := w.pos

/-- `wav_get_format`. -/
def wav_get_format (w : WavFile) : Nat := w.header.format

/-- `wav_get_num_channels`. -/
def wav_get_num_channels (w : WavFile) : Nat := w.header.numChannels

/-- `wav_get_sample_rate`. -/
def wav_get_sample_rate (w : WavFile) : Nat := w.header.sampleRate

/-- `wav_get_valid_bits_per_sample`. -/
def wav_get_valid_bits_per_sample (w : WavFile) : Nat := w.header.validBits

/-- `wav_get_sample_size`. -/
def wav_get_sample_size (w : WavFile) : Nat := w.header.sampleSize

/-- Modelled from the spec: `wav_get_length`, the total frame count: data
chunk byte length divided by block align (floor). -/
def wav_get_length (w : WavFile) : Nat := w.dataLen / blockAlign w.header

/-- `wav_get_channel_mask`. -/
def wav_get_channel_mask (w : WavFile) : Nat := w.header.channelMask

/-- `wav_get_sub_format`. -/
def wav_get_sub_format (w : WavFile) : Nat := w.header.subFormat

/-- Modelled from the spec: `wav_read`.  Valid only in read mode; the
channel-buffer list length must match the channel count (`WAV_ERR_PARAM`),
the format/width combination must be codec-supported (`WAV_ERR_FORMAT`, in
particular the extensible format never is); reads up to `count` frames from
the current position, advances it, sets the EOF flag when the position
reaches the total frame count, and clears the latched error on this path.
Returns the updated session, the number of frames read, and the decoded
per-channel buffers. -/
def wav_read (w : WavFile) (nbufs count : Nat) : WavFile × Nat × List (List Nat) :=
  if w.mode ≠ .read then ({w with err := .mode}, 0, [])
  else if nbufs ≠ w.header.numChannels then ({w with err := .param}, 0, [])
  else if !codecSupported w.header then ({w with err := .format}, 0, [])
  else
    let total := wav_get_length w
    let n := min count (total - w.pos)
    let bytes := sliceBytes w.dataBytes (w.pos * blockAlign w.header) (n * blockAlign w.header)
    let out := decodeData w.header.format w.header.sampleSize bytes w.header.numChannels n
    ({w with pos := w.pos + n, eofFlag := decide (total ≤ w.pos + n), err := .ok}, n, out)

/-- Modelled from the spec: `wav_write`.  Valid only in write mode; the
channel-buffer list length must match the channel count (`WAV_ERR_PARAM`),
the format/width combination must be codec-supported (`WAV_ERR_FORMAT`, in
particular the extensible format never is); writes `count` frames at the
current position (zero-filling any gap), extends the data, advances the
position and freezes the header on success. -/
def wav_write (w : WavFile) (bufs : List (List Nat)) (count : Nat) : WavFile × Nat :=
  if w.mode ≠ .write then ({w with err := .mode}, 0)
  else if bufs.length ≠ w.header.numChannels then ({w with err := .param}, 0)
  else if !codecSupported w.header then ({w with err := .format}, 0)
  else
    let ba := blockAlign w.header
    let enc := encodeData w.header.format w.header.sampleSize bufs count
    let pre := (w.dataBytes ++ List.replicate (w.pos * ba - w.dataBytes.length) 0).take (w.pos * ba)
    let post := w.dataBytes.drop ((w.pos + count) * ba)
    let d := pre ++ enc ++ post
    ({ w with
        dataBytes := d, dataLen := d.length, pos := w.pos + count,
        err := .ok, headerFrozen := true, eofFlag := false }, count)

/-- Modelled from the spec: `wav_seek`.  Position is a frame index; origin 0,
1, 2 mirror start/current/end; a negative target or a bad origin latches
`WAV_ERR_PARAM`; in read mode the position is capped at the total frame
count, in write mode seeking past the end is permitted. -/
def wav_seek (w : WavFile) (offset : Int) (origin : Nat) : WavFile × Int :=
  if 2 < origin then ({w with err := .param}, -1)
  else
    let total := wav_get_length w
    let base : Int := if origin = 0 then 0 else if origin = 1 then (w.pos : Int) else (total : Int)
    let newp := base + offset
    if newp < 0 then ({w with err := .param}, -1)
    else
      let p := if w.mode = .read then min newp.toNat total else newp.toNat
      ({w with pos := p, eofFlag := false, err := .ok}, 0)

/-- `wav_rewind`: seek to the start. -/
def wav_rewind (w : WavFile) : WavFile := (wav_seek w 0 0).1

/-- Modelled from the spec: `wav_flush` forces buffered writes out; in this
model the data is always materialized, so only the latched error is cleared. -/
def wav_flush (w : WavFile) : WavFile := {w with err := .ok}

/-- Modelled from the spec: the bytes of the finished file emitted at
`wav_close` of a write session: the chunk headers, with actual sizes patched
in, followed by the sample data. -/
def wav_close (w : WavFile) : List Nat :=
  headerBytes w.header w.dataLen ++ w.dataBytes

/-- Modelled from the spec: the shared shape of the header-mutating setters:
rejected with `WAV_ERR_MODE` outside write mode or once the header is frozen
by the first write; on a validation failure the model is left unchanged and
`ecode` is latched; on success the field is updated, all data is cleared and
the position reset. -/
def wav_set_core (w : WavFile) (valid : Bool) (ecode : WavErr) (h' : WavHeader) : WavFile :=
  if w.mode ≠ .write then {w with err := .mode}
  else if w.headerFrozen then {w with err := .mode}
  else if valid then
    { w with
        header := h', dataBytes := [], dataLen := 0, pos := 0,
        eofFlag := false, err := .ok }
  else {w with err := ecode}

/-- Modelled from the spec: `wav_set_format` (format must be a known code). -/
def wav_set_format (w : WavFile) (f : Nat) : WavFile :=
  wav_set_core w (knownBase f || f == 0xfffe) .format {w.header with format := f}

/-- Modelled from the spec: `wav_set_num_channels` (at least 1). -/
def wav_set_num_channels (w : WavFile) (n : Nat) : WavFile :=
  wav_set_core w (decide (1 ≤ n)) .param {w.header with numChannels := n}

/-- Modelled from the spec: `wav_set_sample_rate` (positive). -/
def wav_set_sample_rate (w : WavFile) (r : Nat) : WavFile :=
  wav_set_core w (decide (1 ≤ r)) .param {w.header with sampleRate := r}

/-- Modelled from the spec: `wav_set_valid_bits_per_sample` (between 1 and
8 times the sample size; otherwise an error and no change). -/
def wav_set_valid_bits_per_sample (w : WavFile) (b : Nat) : WavFile :=
  wav_set_core w (decide (1 ≤ b) && decide (b ≤ 8 * w.header.sampleSize)) .param
    {w.header with validBits := b}

/-- Modelled from the spec: `wav_set_sample_size` (at least 1); sets
bits-per-sample and valid-bits-per-sample to `8 * sample_size`. -/
def wav_set_sample_size (w : WavFile) (n : Nat) : WavFile :=
  wav_set_core w (decide (1 ≤ n)) .param
    {w.header with sampleSize := n, validBits := 8 * n}

/-- A fresh write session whose Header Model is `h` (as produced by opening
in write mode and applying the setters). -/
def sessionForWrite (h : WavHeader) : WavFile :=
  ⟨.write, h, [], 0, 0, false, .ok, false⟩

/-- Modelled from the spec: one API call on a session, as a step relation
(used to state invariants over every subsequent call). -/
inductive ApiStep : WavFile → WavFile → Prop where
  | rd (w : WavFile) (nbufs count : Nat) : ApiStep w (wav_read w nbufs count).1
  | wr (w : WavFile) (bufs : List (List Nat)) (count : Nat) : ApiStep w (wav_write w bufs count).1
  | sk (w : WavFile) (off : Int) (origin : Nat) : ApiStep w (wav_seek w off origin).1
  | rw (w : WavFile) : ApiStep w (wav_rewind w)
  | fl (w : WavFile) : ApiStep w (wav_flush w)
  | sfmt (w : WavFile) (f : Nat) : ApiStep w (wav_set_format w f)
  | sch (w : WavFile) (n : Nat) : ApiStep w (wav_set_num_channels w n)
  | srate (w : WavFile) (r : Nat) : ApiStep w (wav_set_sample_rate w r)
  | svb (w : WavFile) (b : Nat) : ApiStep w (wav_set_valid_bits_per_sample w b)
  | sss (w : WavFile) (n : Nat) : ApiStep w (wav_set_sample_size w n)

/-! Basic lemmas about byte lists and slicing. -/

@[simp] lemma leBytes_length (n v : Nat) : (leBytes n v).length = n := by
  induction n generalizing v with
  | zero => rfl
  | succ n ih => simp [leBytes, ih]

lemma leNat_leBytes (n v : Nat) (h : v < 2 ^ (8 * n)) : leNat (leBytes n v) = v := by
  induction n generalizing v with
  | zero =>
      simp [leBytes, leNat]
      omega
  | succ n ih =>
      have hdiv : v / 256 < 2 ^ (8 * n) := by
        have h2 : v < 2 ^ (8 * n) * 256 := by
          have : 8 * (n + 1) = 8 * n + 8 := by ring
          rw [this, pow_add] at h
          simpa using h
        omega
      have := ih (v / 256) hdiv
      simp [leBytes, leNat] at this ⊢
      omega

lemma sliceBytes_shift (A B : List Nat) (off n : Nat) :
    sliceBytes (A ++ B) (A.length + off) n = sliceBytes B off n := by
  simp [sliceBytes, List.drop_append]

lemma sliceBytes_here (A B : List Nat) : sliceBytes (A ++ B) 0 A.length = A := by
  simp [sliceBytes, List.take_left]

lemma sliceBytes_all (L : List Nat) : sliceBytes L 0 L.length = L := by
  simp [sliceBytes]

lemma sliceBytes_slice (L : List Nat) (off flen off2 n : Nat) (h : off2 + n ≤ flen) :
    sliceBytes (sliceBytes L off flen) off2 n = sliceBytes L (off + off2) n := by
  unfold sliceBytes
  rw [List.drop_take, List.take_take, List.drop_drop]
  have : min n (flen - off2) = n := by omega
  rw [this]

lemma flatMap_length_const {α : Type} (L : List α) (g : α → List Nat) (flen : Nat)
    (hg : ∀ a ∈ L, (g a).length = flen) : (L.flatMap g).length = L.length * flen := by
  induction L with
  | nil => simp
  | cons a tl ih =>
      have ha := hg a (by simp)
      have htl : ∀ x ∈ tl, (g x).length = flen := fun x hx => hg x (by simp [hx])
      simp [List.flatMap_cons, ha, ih htl]
      ring

lemma flatMap_slice {α : Type} (L : List α) (g : α → List Nat) (flen : Nat)
    (hg : ∀ a ∈ L, (g a).length = flen) (k : Nat) (hk : k < L.length) :
    sliceBytes (L.flatMap g) (k * flen) flen = g (L.get ⟨k, hk⟩) := by
  induction L generalizing k with
  | nil => simp at hk
  | cons a tl ih =>
      have ha := hg a (by simp)
      have htl : ∀ x ∈ tl, (g x).length = flen := fun x hx => hg x (by simp [hx])
      cases k with
      | zero =>
          have : sliceBytes ((a :: tl).flatMap g) 0 (g a).length = g a := by
            rw [List.flatMap_cons]
            exact sliceBytes_here _ _
          simpa [ha] using this
      | succ k =>
          have hk' : k < tl.length := by simpa using hk
          have step : sliceBytes ((a :: tl).flatMap g) ((k + 1) * flen) flen =
              sliceBytes (tl.flatMap g) (k * flen) flen := by
            rw [List.flatMap_cons]
            have harith : (k + 1) * flen = (g a).length + k * flen := by rw [ha]; ring
            rw [harith, sliceBytes_shift]
          rw [step, ih htl k hk']
          rfl

/-! G.711 companding: value-level idempotence on already-quantized input. -/

lemma alaw_idem : ∀ b, b < 256 → alawExpand (alawCompress (alawExpand b)) = alawExpand b := by decide

lemma mulaw_idem : ∀ b, b < 256 → mulawExpand (mulawCompress (mulawExpand b)) = mulawExpand b := by decide

/-! Error-classification lemmas about the byte source and chunk scan. -/

lemma readAt_err {s : ByteSrc} {off n : Nat} {e : WavErr} (h : readAt s off n = .error e) :
    e = .format ∨ e = .os := by
  unfold readAt at h
  repeat' split at h
  all_goals simp_all

lemma readAt_os_mono {s : ByteSrc} {off n off2 n2 : Nat} (h : readAt s off n = .error .os)
    (hle : off + n ≤ off2 + n2) : readAt s off2 n2 = .error .os := by
  unfold readAt at h ⊢
  split at h <;> rename_i heq
  · split_ifs at h <;> simp_all
  · rename_i k
    have hk1 : k < off + n ∧ k < s.bytes.length := by
      by_cases c1 : s.bytes.length < off + n
      · rw [if_pos c1] at h
        by_cases c2 : k < s.bytes.length
        · exact ⟨by omega, c2⟩
        · rw [if_neg c2] at h; simp at h
      · rw [if_neg c1] at h
        by_cases c2 : k < off + n
        · exact ⟨c2, by omega⟩
        · rw [if_neg c2] at h; simp at h
    split_ifs with g1 g2 g3 <;> first | rfl | (exfalso; omega)

lemma findChunk_err {s : ByteSrc} {tag : List Nat} {off fuel : Nat} {e : WavErr}
    (h : findChunk s tag off fuel = .error e) : e = .format ∨ e = .os := by
  induction fuel generalizing off with
  | zero =>
      unfold findChunk at h
      injection h with h
      exact Or.inl h.symm
  | succ fuel ih =>
      unfold findChunk at h
      split at h
      · next e' hr =>
          injection h with h
          rcases readAt_err hr with h1 | h1 <;> rw [← h] <;> simp [h1]
      · next hdr hr =>
          simp only [] at h
          split at h
          · exact absurd h (by simp)
          · exact ih h

lemma findChunk_os {s : ByteSrc} {tag : List Nat} {off : Nat} (fuel : Nat)
    (h : readAt s off 8 = .error .os) : findChunk s tag off (fuel + 1) = .error .os := by
  unfold findChunk
  rw [h]

lemma readAt_format_mono {s : ByteSrc} {off n off2 n2 : Nat}
    (h : readAt s off n = .error .format) (hle : off + n ≤ off2 + n2) :
    readAt s off2 n2 = .error .format := by
  unfold readAt at h ⊢
  split at h <;> rename_i heq
  · split_ifs at h with c1
    split_ifs with g1
    · rfl
    · exfalso; omega
  · rename_i k
    have hc : s.bytes.length < off + n ∧ ¬ k < s.bytes.length := by
      by_cases c1 : s.bytes.length < off + n
      · rw [if_pos c1] at h
        by_cases c2 : k < s.bytes.length
        · rw [if_pos c2] at h; simp at h
        · exact ⟨c1, c2⟩
      · rw [if_neg c1] at h
        by_cases c2 : k < off + n
        · rw [if_pos c2] at h; simp at h
        · rw [if_neg c2] at h; simp at h
    split_ifs with g1 g2 g3 <;> first | rfl | (exfalso; omega)

lemma readAt_os_src {s : ByteSrc} {off n : Nat} (h : readAt s off n = .error .os) :
    s.ioFailAt ≠ none := by
  intro hn
  unfold readAt at h
  split at h <;> rename_i heq
  · split_ifs at h <;> simp_all
  · rw [hn] at heq; cases heq

lemma findChunk_os_src {s : ByteSrc} {tag : List Nat} {off fuel : Nat}
    (h : findChunk s tag off fuel = .error .os) : s.ioFailAt ≠ none := by
  induction fuel generalizing off with
  | zero =>
      unfold findChunk at h
      simp at h
  | succ fuel ih =>
      unfold findChunk at h
      split at h
      · next e' hr =>
          injection h with h
          subst h
          exact readAt_os_src hr
      · next hdr hr =>
          simp only [] at h
          split at h
          · exact absurd h (by simp)
          · exact ih h

lemma parse_format_iff (s : ByteSrc) :
    parseWav s = .error .format ↔ formatBad s = true := by
  unfold parseWav
  cases h0 : readAt s 0 4 with
  | error e =>
    rcases readAt_err h0 with rfl | rfl
    · simp [formatBad, riffMismatch, tagBad, h0]
    · have m8 : readAt s 8 4 = .error .os := readAt_os_mono h0 (by omega)
      have m12 : readAt s 12 8 = .error .os := readAt_os_mono h0 (by omega)
      have mf : findChunk s fmtChars 12 (s.bytes.length + 1) = .error .os :=
        findChunk_os _ m12
      simp [formatBad, riffMismatch, waveMismatch, tagBad, fmtMissing, fmtShort,
            fmtUnknown, dataMissing, fmtChunk, h0, m8, mf]
  | ok riff =>
    by_cases hr : riff = riffChars
    · subst hr
      cases h4 : readAt s 4 4 with
      | error e =>
        rcases readAt_err h4 with rfl | rfl
        · have m8 : readAt s 8 4 = .error .format := readAt_format_mono h4 (by omega)
          simp [formatBad, waveMismatch, tagBad, h0, h4, m8]
        · have m8 : readAt s 8 4 = .error .os := readAt_os_mono h4 (by omega)
          have m12 : readAt s 12 8 = .error .os := readAt_os_mono h4 (by omega)
          have mf : findChunk s fmtChars 12 (s.bytes.length + 1) = .error .os :=
            findChunk_os _ m12
          simp [formatBad, riffMismatch, waveMismatch, tagBad, fmtMissing, fmtShort,
                fmtUnknown, dataMissing, fmtChunk, h0, h4, m8, mf]
      | ok u =>
        cases h8 : readAt s 8 4 with
        | error e =>
          rcases readAt_err h8 with rfl | rfl
          · simp [formatBad, waveMismatch, tagBad, h0, h4, h8]
          · have m12 : readAt s 12 8 = .error .os := readAt_os_mono h8 (by omega)
            have mf : findChunk s fmtChars 12 (s.bytes.length + 1) = .error .os :=
              findChunk_os _ m12
            simp [formatBad, riffMismatch, waveMismatch, tagBad, fmtMissing, fmtShort,
                  fmtUnknown, dataMissing, fmtChunk, h0, h4, h8, mf]
        | ok wave =>
          by_cases hw : wave = waveChars
          · subst hw
            cases hf : findChunk s fmtChars 12 (s.bytes.length + 1) with
            | error e =>
              rcases findChunk_err hf with rfl | rfl
              · simp [formatBad, fmtMissing, fmtChunk, h0, h4, h8, hf]
              · simp [formatBad, riffMismatch, waveMismatch, tagBad, fmtMissing, fmtShort,
                      fmtUnknown, dataMissing, fmtChunk, h0, h4, h8, hf]
            | ok p =>
              obtain ⟨fOff, fLen⟩ := p
              by_cases hl : fLen < 16
              · simp [formatBad, riffMismatch, waveMismatch, tagBad, fmtMissing, fmtShort,
                      fmtUnknown, dataMissing, fmtChunk, h0, h4, h8, hf, hl]
              · cases hb : readAt s fOff 16 with
                | error e =>
                  rcases readAt_err hb with rfl | rfl
                  · simp [formatBad, riffMismatch, waveMismatch, tagBad, fmtMissing, fmtShort,
                          fmtUnknown, dataMissing, fmtChunk, h0, h4, h8, hf, hl, hb]
                  · have mdata : readAt s (fOff + fLen + fLen % 2) 8 = .error .os :=
                      readAt_os_mono hb (by omega)
                    have md : findChunk s dataChars (fOff + fLen + fLen % 2) (s.bytes.length + 1) = .error .os :=
                      findChunk_os _ mdata
                    simp [formatBad, riffMismatch, waveMismatch, tagBad, fmtMissing, fmtShort,
                          fmtUnknown, dataMissing, fmtChunk, h0, h4, h8, hf, hl, hb, md]
                | ok body =>
                  by_cases he : u16At body 0 = 0xfffe
                  · by_cases h40 : fLen < 40
                    · simp [formatBad, riffMismatch, waveMismatch, tagBad, fmtMissing, fmtShort,
                            fmtUnknown, dataMissing, fmtChunk, h0, h4, h8, hf, hl, hb, he, h40]
                    · cases hx : readAt s (fOff + 16) 24 with
                      | error e =>
                        rcases readAt_err hx with rfl | rfl
                        · simp [formatBad, riffMismatch, waveMismatch, tagBad, fmtMissing, fmtShort,
                                fmtUnknown, dataMissing, fmtChunk, h0, h4, h8, hf, hl, hb, he, h40, hx]
                        · have mdata : readAt s (fOff + fLen + fLen % 2) 8 = .error .os :=
                            readAt_os_mono hx (by omega)
                          have md : findChunk s dataChars (fOff + fLen + fLen % 2) (s.bytes.length + 1) = .error .os :=
                            findChunk_os _ mdata
                          simp [formatBad, riffMismatch, waveMismatch, tagBad, fmtMissing, fmtShort,
                                fmtUnknown, dataMissing, fmtChunk, h0, h4, h8, hf, hl, hb, he, h40, hx, md]
                      | ok ext =>
                        cases hd : findChunk s dataChars (fOff + fLen + fLen % 2) (s.bytes.length + 1) with
                        | error e =>
                          rcases findChunk_err hd with rfl | rfl
                          · simp [formatBad, riffMismatch, waveMismatch, tagBad, fmtMissing, fmtShort,
                                  fmtUnknown, dataMissing, fmtChunk, h0, h4, h8, hf, hl, hb, he, h40, hx, hd]
                          · simp [formatBad, riffMismatch, waveMismatch, tagBad, fmtMissing, fmtShort,
                                  fmtUnknown, dataMissing, fmtChunk, h0, h4, h8, hf, hl, hb, he, h40, hx, hd]
                        | ok q =>
                          simp [formatBad, riffMismatch, waveMismatch, tagBad, fmtMissing, fmtShort,
                                fmtUnknown, dataMissing, fmtChunk, h0, h4, h8, hf, hl, hb, he, h40, hx, hd]
                  · by_cases hkb : knownBase (u16At body 0) = true
                    · cases hd : findChunk s dataChars (fOff + fLen + fLen % 2) (s.bytes.length + 1) with
                      | error e =>
                        rcases findChunk_err hd with rfl | rfl
                        · simp [formatBad, riffMismatch, waveMismatch, tagBad, fmtMissing, fmtShort,
                                fmtUnknown, dataMissing, fmtChunk, h0, h4, h8, hf, hl, hb, he, hkb, hd]
                        · simp [formatBad, riffMismatch, waveMismatch, tagBad, fmtMissing, fmtShort,
                                fmtUnknown, dataMissing, fmtChunk, h0, h4, h8, hf, hl, hb, he, hkb, hd]
                      | ok q =>
                        simp [formatBad, riffMismatch, waveMismatch, tagBad, fmtMissing, fmtShort,
                              fmtUnknown, dataMissing, fmtChunk, h0, h4, h8, hf, hl, hb, he, hkb, hd]
                    · simp only [Bool.not_eq_true] at hkb
                      simp [formatBad, riffMismatch, waveMismatch, tagBad, fmtMissing, fmtShort,
                            fmtUnknown, dataMissing, fmtChunk, h0, h4, h8, hf, hl, hb, he, hkb]
                      exact Or.inl (by omega)
          · simp [formatBad, waveMismatch, tagBad, h0, h4, h8, hw]
    · simp [formatBad, riffMismatch, tagBad, h0, hr]

lemma parse_err_shape {s : ByteSrc} {e : WavErr} (h : parseWav s = .error e) :
    (e = .format ∨ e = .os) ∧ (e = .os → s.ioFailAt ≠ none) := by
  unfold parseWav at h
  split at h
  · next e' hr =>
      injection h with h
      subst h
      exact ⟨readAt_err hr, fun hos => readAt_os_src (hos ▸ hr)⟩
  · next riff hr =>
      split at h
      · injection h with h
        subst h
        exact ⟨Or.inl rfl, by simp⟩
      · split at h
        · next e' h4 =>
            injection h with h
            subst h
            exact ⟨readAt_err h4, fun hos => readAt_os_src (hos ▸ h4)⟩
        · next u h4 =>
            split at h
            · next e' h8 =>
                injection h with h
                subst h
                exact ⟨readAt_err h8, fun hos => readAt_os_src (hos ▸ h8)⟩
            · next wave h8 =>
                split at h
                · injection h with h
                  subst h
                  exact ⟨Or.inl rfl, by simp⟩
                · split at h
                  · next e' hf =>
                      injection h with h
                      subst h
                      exact ⟨findChunk_err hf, fun hos => findChunk_os_src (hos ▸ hf)⟩
                  · next fOff fLen hf =>
                      split at h
                      · injection h with h
                        subst h
                        exact ⟨Or.inl rfl, by simp⟩
                      · split at h
                        · next e' hb =>
                            injection h with h
                            subst h
                            exact ⟨readAt_err hb, fun hos => readAt_os_src (hos ▸ hb)⟩
                        · next body hb =>
                            simp only [] at h
                            split at h
                            · split at h
                              · injection h with h
                                subst h
                                exact ⟨Or.inl rfl, by simp⟩
                              · split at h
                                · next e' hx =>
                                    injection h with h
                                    subst h
                                    exact ⟨readAt_err hx, fun hos => readAt_os_src (hos ▸ hx)⟩
                                · next ext hx =>
                                    split at h
                                    · next e' hd =>
                                        injection h with h
                                        subst h
                                        exact ⟨findChunk_err hd, fun hos => findChunk_os_src (hos ▸ hd)⟩
                                    · exact absurd h (by simp)
                            · split at h
                              · injection h with h
                                subst h
                                exact ⟨Or.inl rfl, by simp⟩
                              · split at h
                                · next e' hd =>
                                    injection h with h
                                    subst h
                                    exact ⟨findChunk_err hd, fun hos => findChunk_os_src (hos ▸ hd)⟩
                                · exact absurd h (by simp)

lemma readAt_total (L : List Nat) (off n : Nat) (hb : off + n ≤ L.length) :
    readAt ⟨L, none⟩ off n = .ok (sliceBytes L off n) := by
  show (if L.length < off + n then (Except.error WavErr.format : Except WavErr (List Nat))
        else .ok (sliceBytes L off n)) = .ok (sliceBytes L off n)
  rw [if_neg (by omega)]

lemma headerBytes_length (h : WavHeader) (d : Nat) (hne : h.format ≠ 0xfffe) :
    (headerBytes h d).length = 44 := by
  simp [headerBytes, hne, fmtBodyBytes, riffChars, waveChars, fmtChars, dataChars]

lemma parse_headerBytes (h : WavHeader) (data : List Nat)
    (hkb : knownBase h.format = true)
    (hch : h.numChannels < 65536)
    (hrate : h.sampleRate < 4294967296)
    (hss : 8 * h.sampleSize < 65536)
    (hd : data.length < 4294967296) :
    parseWav ⟨headerBytes h data.length ++ data, none⟩ =
      .ok ⟨⟨h.format, h.numChannels, h.sampleRate, h.sampleSize, 8 * h.sampleSize, 0, 0⟩,
           44, data.length⟩ := by
  have hfmt4 : ((h.format = 1 ∨ h.format = 3) ∨ h.format = 6) ∨ h.format = 7 := by
    simpa [knownBase] using hkb
  have hne : h.format ≠ 0xfffe := by omega
  have hfb : h.format < 65536 := by omega
  set d := data.length with hdd
  have hlen : (headerBytes h d ++ data).length = 44 + d := by
    simp [headerBytes_length h d hne]
  have s0 : sliceBytes (headerBytes h d ++ data) 0 4 = riffChars := by
    simp [sliceBytes, headerBytes, hne, fmtBodyBytes, leBytes, riffChars, waveChars,
          fmtChars, dataChars]
  have s8 : sliceBytes (headerBytes h d ++ data) 8 4 = waveChars := by
    simp [sliceBytes, headerBytes, hne, fmtBodyBytes, leBytes, riffChars, waveChars,
          fmtChars, dataChars]
  have s12 : sliceBytes (headerBytes h d ++ data) 12 8 = fmtChars ++ leBytes 4 16 := by
    simp [sliceBytes, headerBytes, hne, fmtBodyBytes, leBytes, riffChars, waveChars,
          fmtChars, dataChars]
  have s20 : sliceBytes (headerBytes h d ++ data) 20 16 = fmtBodyBytes h := by
    simp [sliceBytes, headerBytes, hne, fmtBodyBytes, leBytes, riffChars, waveChars,
          fmtChars, dataChars]
  have s36 : sliceBytes (headerBytes h d ++ data) 36 8 = dataChars ++ leBytes 4 d := by
    simp [sliceBytes, headerBytes, hne, fmtBodyBytes, leBytes, riffChars, waveChars,
          fmtChars, dataChars]
  have r0 : readAt ⟨headerBytes h d ++ data, none⟩ 0 4 = .ok riffChars := by
    rw [readAt_total _ _ _ (by omega), s0]
  have r4 : readAt ⟨headerBytes h d ++ data, none⟩ 4 4 =
      .ok (sliceBytes (headerBytes h d ++ data) 4 4) :=
    readAt_total _ _ _ (by omega)
  have r8 : readAt ⟨headerBytes h d ++ data, none⟩ 8 4 = .ok waveChars := by
    rw [readAt_total _ _ _ (by omega), s8]
  have r12 : readAt ⟨headerBytes h d ++ data, none⟩ 12 8 = .ok (fmtChars ++ leBytes 4 16) := by
    rw [readAt_total _ _ _ (by omega), s12]
  have r20 : readAt ⟨headerBytes h d ++ data, none⟩ 20 16 = .ok (fmtBodyBytes h) := by
    rw [readAt_total _ _ _ (by omega), s20]
  have r36 : readAt ⟨headerBytes h d ++ data, none⟩ 36 8 = .ok (dataChars ++ leBytes 4 d) := by
    rw [readAt_total _ _ _ (by omega), s36]
  have u0 : u16At (fmtBodyBytes h) 0 = h.format := by
    simp [u16At, fmtBodyBytes, leBytes, leNat]
    omega
  have u2 : u16At (fmtBodyBytes h) 2 = h.numChannels := by
    simp [u16At, fmtBodyBytes, leBytes, leNat]
    omega
  have u4v : u32At (fmtBodyBytes h) 4 = h.sampleRate := by
    simp [u32At, fmtBodyBytes, leBytes, leNat]
    omega
  have u14 : u16At (fmtBodyBytes h) 14 = 8 * h.sampleSize := by
    simp [u16At, fmtBodyBytes, leBytes, leNat]
    omega
  have uD : leNat (leBytes 4 d) = d := leNat_leBytes 4 d (by norm_num; omega)
  have hdiv : 8 * h.sampleSize / 8 = h.sampleSize := by omega
  unfold parseWav
  simp only [r0, r4, r8]
  simp [findChunk, hlen, r12, r20, r36, u0, u2, u4v, u14, uD, hne, hkb, hdiv,
        fmtChars, dataChars, leBytes, leNat, riffChars, waveChars]
  omega

lemma encodeSample_length (fmt ss v : Nat) (h6 : fmt = 6 → ss = 1) (h7 : fmt = 7 → ss = 1) :
    (encodeSample fmt ss v).length = ss := by
  unfold encodeSample
  split_ifs with c6 c7
  · simp [h6 (by simpa using c6)]
  · simp [h7 (by simpa using c7)]
  · simp

lemma encodeFrame_length (fmt ss : Nat) (bufs : List (List Nat)) (i : Nat)
    (h6 : fmt = 6 → ss = 1) (h7 : fmt = 7 → ss = 1) :
    (encodeFrame fmt ss bufs i).length = bufs.length * ss :=
  flatMap_length_const bufs _ ss (fun _ _ => encodeSample_length fmt ss _ h6 h7)

lemma encodeData_length (fmt ss : Nat) (bufs : List (List Nat)) (count : Nat)
    (h6 : fmt = 6 → ss = 1) (h7 : fmt = 7 → ss = 1) :
    (encodeData fmt ss bufs count).length = count * (bufs.length * ss) := by
  unfold encodeData
  rw [flatMap_length_const _ _ (bufs.length * ss)
      (fun i _ => encodeFrame_length fmt ss bufs i h6 h7)]
  simp

lemma decode_encode_sample (fmt ss v : Nat) (hv : sampleValid fmt ss v = true) :
    decodeSample fmt ss (encodeSample fmt ss v) = v := by
  unfold decodeSample encodeSample
  unfold sampleValid at hv
  split_ifs at hv ⊢ with c6 c7
  · simp only [List.any_eq_true, List.mem_range, beq_iff_eq] at hv
    obtain ⟨b, hb, rfl⟩ := hv
    simpa using alaw_idem b hb
  · simp only [List.any_eq_true, List.mem_range, beq_iff_eq] at hv
    obtain ⟨b, hb, rfl⟩ := hv
    simpa using mulaw_idem b hb
  · exact leNat_leBytes ss v (by simpa using hv)

lemma decodeAt_encode (fmt ss nch count : Nat) (bufs : List (List Nat))
    (hb : bufs.length = nch)
    (hN : ∀ b ∈ bufs, b.length = count)
    (hv : ∀ b ∈ bufs, ∀ v ∈ b, sampleValid fmt ss v = true)
    (h6 : fmt = 6 → ss = 1) (h7 : fmt = 7 → ss = 1)
    (i c : Nat) (hi : i < count) (hc : c < nch) :
    decodeAt fmt ss nch (encodeData fmt ss bufs count) i c = (bufs.getD c []).getD i 0 := by
  unfold decodeAt
  have hcb : c < bufs.length := by omega
  have harith : (i * nch + c) * ss = i * (nch * ss) + c * ss := by ring
  have hinner : c * ss + ss ≤ nch * ss := by
    have : (c + 1) * ss ≤ nch * ss := Nat.mul_le_mul_right ss (by omega)
    calc c * ss + ss = (c + 1) * ss := by ring
      _ ≤ nch * ss := this
  rw [harith, ← sliceBytes_slice _ _ (nch * ss) _ _ hinner]
  have hframe : sliceBytes (encodeData fmt ss bufs count) (i * (nch * ss)) (nch * ss) =
      encodeFrame fmt ss bufs i := by
    unfold encodeData
    have := flatMap_slice (List.range count) (encodeFrame fmt ss bufs) (nch * ss)
      (fun a _ => by rw [encodeFrame_length fmt ss bufs a h6 h7, hb]) i (by simpa using hi)
    simpa using this
  rw [hframe]
  have hchan : sliceBytes (encodeFrame fmt ss bufs i) (c * ss) ss =
      encodeSample fmt ss ((bufs.get ⟨c, hcb⟩).getD i 0) := by
    unfold encodeFrame
    exact flatMap_slice bufs (fun b => encodeSample fmt ss (b.getD i 0)) ss
      (fun a _ => encodeSample_length fmt ss _ h6 h7) c hcb
  rw [hchan]
  have hget : bufs.getD c [] = bufs.get ⟨c, hcb⟩ := List.getD_eq_get bufs [] hcb
  rw [hget]
  have him : i < (bufs.get ⟨c, hcb⟩).length := by
    rw [hN _ (List.get_mem bufs c hcb)]
    exact hi
  have hel : (bufs.get ⟨c, hcb⟩).getD i 0 ∈ bufs.get ⟨c, hcb⟩ := by
    rw [List.getD_eq_getElem _ _ him]
    exact List.getElem_mem him
  exact decode_encode_sample fmt ss _ (hv _ (List.get_mem bufs c hcb) _ hel)

lemma decodeData_encodeData (fmt ss nch count : Nat) (bufs : List (List Nat))
    (hb : bufs.length = nch)
    (hN : ∀ b ∈ bufs, b.length = count)
    (hv : ∀ b ∈ bufs, ∀ v ∈ b, sampleValid fmt ss v = true)
    (h6 : fmt = 6 → ss = 1) (h7 : fmt = 7 → ss = 1) :
    decodeData fmt ss (encodeData fmt ss bufs count) nch count = bufs := by
  refine List.ext_get ?_ ?_
  · simp [decodeData, hb]
  · intro c h1 h2
    have hc : c < nch := by simpa [decodeData] using h1
    have hcb : c < bufs.length := by omega
    have hrow : (decodeData fmt ss (encodeData fmt ss bufs count) nch count).get ⟨c, h1⟩ =
        (List.range count).map
          (fun i => decodeAt fmt ss nch (encodeData fmt ss bufs count) i c) := by
      simp [decodeData]
    rw [hrow]
    refine List.ext_get ?_ ?_
    · simp only [List.length_map, List.length_range]
      exact (hN _ (List.get_mem bufs c h2)).symm
    · intro i hi1 hi2
      have hi : i < count := by simpa using hi1
      have hcell : ((List.range count).map
          (fun i => decodeAt fmt ss nch (encodeData fmt ss bufs count) i c)).get ⟨i, hi1⟩ =
          decodeAt fmt ss nch (encodeData fmt ss bufs count) i c := by
        simp
      rw [hcell, decodeAt_encode fmt ss nch count bufs hb hN hv h6 h7 i c hi hc]
      rw [List.getD_eq_get bufs [] hcb]
      exact List.getD_eq_get _ _ hi2

lemma codec_facts (h : WavHeader) (hcs : codecSupported h = true) :
    (h.format = 1 ∨ h.format = 3 ∨ h.format = 6 ∨ h.format = 7) ∧
    1 ≤ h.sampleSize ∧ h.sampleSize ≤ 8 ∧
    (h.format = 6 → h.sampleSize = 1) ∧ (h.format = 7 → h.sampleSize = 1) := by
  simp [codecSupported] at hcs
  omega

lemma wav_roundtrip (h : WavHeader) (bufs : List (List Nat)) (count : Nat)
    (hcs : codecSupported h = true)
    (hch1 : 1 ≤ h.numChannels) (hch2 : h.numChannels < 65536)
    (hr2 : h.sampleRate < 4294967296)
    (hbl : bufs.length = h.numChannels)
    (hN : ∀ b ∈ bufs, b.length = count)
    (hv : ∀ b ∈ bufs, ∀ v ∈ b, sampleValid h.format h.sampleSize v = true)
    (hd32 : count * blockAlign h < 4294967296) :
    (wav_write (sessionForWrite h) bufs count).2 = count ∧
    wav_open true ⟨wav_close (wav_write (sessionForWrite h) bufs count).1, none⟩ .read
      = some (openedSession ⟨wav_close (wav_write (sessionForWrite h) bufs count).1, none⟩ .read) ∧
    wav_errno (openedSession ⟨wav_close (wav_write (sessionForWrite h) bufs count).1, none⟩ .read)
      = .ok ∧
    wav_get_length
      (openedSession ⟨wav_close (wav_write (sessionForWrite h) bufs count).1, none⟩ .read)
      = count ∧
    (wav_read (openedSession ⟨wav_close (wav_write (sessionForWrite h) bufs count).1, none⟩ .read)
      h.numChannels count).2.1 = count ∧
    (wav_read (openedSession ⟨wav_close (wav_write (sessionForWrite h) bufs count).1, none⟩ .read)
      h.numChannels count).2.2 = bufs := by
  obtain ⟨hf4, hss1, hss8, h6, h7⟩ := codec_facts h hcs
  have hkb : knownBase h.format = true := by
    simp [knownBase]
    omega
  have hne : h.format ≠ 0xfffe := by omega
  have hba : 0 < blockAlign h := Nat.mul_pos (by omega) (by omega)
  have henclen : (encodeData h.format h.sampleSize bufs count).length = count * blockAlign h := by
    rw [encodeData_length _ _ _ _ h6 h7, hbl]
    unfold blockAlign
    ring
  have hw : wav_write (sessionForWrite h) bufs count =
      (⟨.write, h, encodeData h.format h.sampleSize bufs count,
        (encodeData h.format h.sampleSize bufs count).length, count, false, .ok, true⟩, count) := by
    unfold wav_write sessionForWrite
    simp [hbl, hcs]
  have hclose : wav_close (wav_write (sessionForWrite h) bufs count).1 =
      headerBytes h (encodeData h.format h.sampleSize bufs count).length ++
        encodeData h.format h.sampleSize bufs count := by
    rw [hw]
    rfl
  have hparse := parse_headerBytes h (encodeData h.format h.sampleSize bufs count) hkb hch2 hr2
    (by omega) (by rw [henclen]; exact hd32)
  have hslice : sliceBytes
      (headerBytes h (encodeData h.format h.sampleSize bufs count).length ++
        encodeData h.format h.sampleSize bufs count) 44
      (encodeData h.format h.sampleSize bufs count).length =
      encodeData h.format h.sampleSize bufs count := by
    have h1 := sliceBytes_shift (headerBytes h (encodeData h.format h.sampleSize bufs count).length)
      (encodeData h.format h.sampleSize bufs count) 0
      (encodeData h.format h.sampleSize bufs count).length
    rw [headerBytes_length h _ hne] at h1
    simpa [sliceBytes_all] using h1
  have hopen : openedSession
      ⟨wav_close (wav_write (sessionForWrite h) bufs count).1, none⟩ .read =
      ⟨.read, ⟨h.format, h.numChannels, h.sampleRate, h.sampleSize, 8 * h.sampleSize, 0, 0⟩,
        encodeData h.format h.sampleSize bufs count,
        (encodeData h.format h.sampleSize bufs count).length, 0, false, .ok, false⟩ := by
    rw [hclose]
    unfold openedSession
    simp [hparse, hslice]
  have hcs2 : codecSupported
      ⟨h.format, h.numChannels, h.sampleRate, h.sampleSize, 8 * h.sampleSize, 0, 0⟩ = true := hcs
  have hlen2 : wav_get_length
      ⟨.read, ⟨h.format, h.numChannels, h.sampleRate, h.sampleSize, 8 * h.sampleSize, 0, 0⟩,
        encodeData h.format h.sampleSize bufs count,
        (encodeData h.format h.sampleSize bufs count).length, 0, false, .ok, false⟩ = count := by
    show (encodeData h.format h.sampleSize bufs count).length / blockAlign h = count
    rw [henclen]
    exact Nat.mul_div_cancel count hba
  have hread : wav_read
      ⟨.read, ⟨h.format, h.numChannels, h.sampleRate, h.sampleSize, 8 * h.sampleSize, 0, 0⟩,
        encodeData h.format h.sampleSize bufs count,
        (encodeData h.format h.sampleSize bufs count).length, 0, false, .ok, false⟩
      h.numChannels count =
      (⟨.read, ⟨h.format, h.numChannels, h.sampleRate, h.sampleSize, 8 * h.sampleSize, 0, 0⟩,
        encodeData h.format h.sampleSize bufs count,
        (encodeData h.format h.sampleSize bufs count).length, count, true, .ok, false⟩, count,
        decodeData h.format h.sampleSize (encodeData h.format h.sampleSize bufs count)
          h.numChannels count) := by
    unfold wav_read
    rw [hlen2]
    simp only [hcs2]
    have hba2 : blockAlign
        ⟨h.format, h.numChannels, h.sampleRate, h.sampleSize, 8 * h.sampleSize, 0, 0⟩ =
        blockAlign h := rfl
    simp [hba2, ← henclen, sliceBytes_all]
  refine ⟨by rw [hw], by simp [wav_open], ?_, ?_, ?_, ?_⟩
  · rw [hopen]
    rfl
  · rw [hopen]
    exact hlen2
  · rw [hopen, hread]
  · rw [hopen, hread]
    exact decodeData_encodeData h.format h.sampleSize h.numChannels count bufs hbl hN hv h6 h7

lemma setter_frozen (w : WavFile) (valid : Bool) (ecode : WavErr) (h' : WavHeader)
    (hm : w.mode = .write) (hf : w.headerFrozen = true) :
    wav_set_core w valid ecode h' = {w with err := .mode} := by
  unfold wav_set_core
  simp [hm, hf]

lemma step_preserves_frozen {w w' : WavFile} (st : ApiStep w w')
    (hm : w.mode = .write) (hf : w.headerFrozen = true) :
    w'.mode = .write ∧ w'.headerFrozen = true ∧ w'.header = w.header := by
  cases st with
  | rd nbufs count => unfold wav_read; split_ifs <;> simp [hm, hf]
  | wr bufs count => unfold wav_write; split_ifs <;> simp [hm, hf]
  | sk off origin =>
      unfold wav_seek
      simp only []
      split_ifs <;> simp [hm, hf]
  | rw =>
      unfold wav_rewind wav_seek
      simp only []
      split_ifs <;> simp [hm, hf]
  | fl => unfold wav_flush; simp [hm, hf]
  | sfmt f => rw [wav_set_format, setter_frozen w _ _ _ hm hf]; simp [hm, hf]
  | sch n => rw [wav_set_num_channels, setter_frozen w _ _ _ hm hf]; simp [hm, hf]
  | srate r => rw [wav_set_sample_rate, setter_frozen w _ _ _ hm hf]; simp [hm, hf]
  | svb b => rw [wav_set_valid_bits_per_sample, setter_frozen w _ _ _ hm hf]; simp [hm, hf]
  | sss n => rw [wav_set_sample_size, setter_frozen w _ _ _ hm hf]; simp [hm, hf]

lemma write_success {w : WavFile} {bufs : List (List Nat)} {count : Nat}
    (hc : 0 < count) (hs : (wav_write w bufs count).2 = count) :
    (wav_write w bufs count).1.headerFrozen = true ∧
    (wav_write w bufs count).1.header = w.header ∧
    (wav_write w bufs count).1.mode = w.mode := by
  unfold wav_write at hs ⊢
  split_ifs at hs ⊢ <;> simp_all

/-- Claim C10: for every reachable session state the two error accessors
agree: `wav_error` returns non-zero exactly when `wav_errno` returns a value
different from `WAV_OK`. -/
theorem claim_C10_error_accessors_agree (w : WavFile) :
    wav_error w ≠ 0 ↔ wav_errno w ≠ .ok := by
  unfold wav_error wav_errno
  split_ifs with hc <;> simp [hc]

/-- Witness for C10 at a concrete session. -/
theorem claim_C10_witness :
    wav_error (sessionForWrite defaultHeader) ≠ 0 ↔
      wav_errno (sessionForWrite defaultHeader) ≠ .ok :=
  claim_C10_error_accessors_agree (sessionForWrite defaultHeader)

/-- Claim C4: in every session state, block align equals channels times
sample size, and `wav_get_length` is the data chunk byte length divided by
block align, rounded down (Nat division). -/
theorem claim_C4_geometry (w : WavFile) :
    blockAlign w.header = w.header.numChannels * w.header.sampleSize ∧
    wav_get_length w = w.dataLen / blockAlign w.header :=
  ⟨rfl, rfl⟩

/-- Witness for C4 at a concrete session. -/
theorem claim_C4_witness :
    blockAlign (sessionForWrite defaultHeader).header =
      (sessionForWrite defaultHeader).header.numChannels *
        (sessionForWrite defaultHeader).header.sampleSize ∧
    wav_get_length (sessionForWrite defaultHeader) =
      (sessionForWrite defaultHeader).dataLen /
        blockAlign (sessionForWrite defaultHeader).header :=
  claim_C4_geometry (sessionForWrite defaultHeader)

/-- Claim C7: calling `wav_set_valid_bits_per_sample` with 0 bits or with
more than `8 * sample_size` bits on a mutable write session fails, latching
`WAV_ERR_PARAM` (one of the two codes the spec allows), and leaves the header
model, in particular the previous valid-bits value, unchanged. -/
theorem claim_C7_set_valid_bits_invalid (w : WavFile) (bits : Nat)
    (hm : w.mode = .write) (hf : w.headerFrozen = false)
    (hbad : bits = 0 ∨ 8 * w.header.sampleSize < bits) :
    (wav_set_valid_bits_per_sample w bits).header = w.header ∧
    wav_get_valid_bits_per_sample (wav_set_valid_bits_per_sample w bits) =
      wav_get_valid_bits_per_sample w ∧
    (wav_errno (wav_set_valid_bits_per_sample w bits) = .param ∨
      wav_errno (wav_set_valid_bits_per_sample w bits) = .format) := by
  have hv : (decide (1 ≤ bits) && decide (bits ≤ 8 * w.header.sampleSize)) = false := by
    rcases hbad with rfl | hgt <;> simp <;> omega
  unfold wav_set_valid_bits_per_sample wav_set_core
  rw [hv]
  simp [hm, hf, wav_get_valid_bits_per_sample, wav_errno]

/-- Witness for C7: setting 0 valid bits on a fresh write session. -/
theorem claim_C7_witness :
    (wav_set_valid_bits_per_sample (sessionForWrite defaultHeader) 0).header =
      (sessionForWrite defaultHeader).header ∧
    wav_get_valid_bits_per_sample
        (wav_set_valid_bits_per_sample (sessionForWrite defaultHeader) 0) =
      wav_get_valid_bits_per_sample (sessionForWrite defaultHeader) ∧
    (wav_errno (wav_set_valid_bits_per_sample (sessionForWrite defaultHeader) 0) = .param ∨
      wav_errno (wav_set_valid_bits_per_sample (sessionForWrite defaultHeader) 0) = .format) :=
  claim_C7_set_valid_bits_invalid (sessionForWrite defaultHeader) 0 (by decide) (by decide)
    (by decide)

/-- Claim C8: every accepted `wav_set_sample_size` call sets bits-per-sample
to `8 * sample_size` and valid-bits-per-sample to the same full-width value,
so `wav_get_valid_bits_per_sample` immediately afterwards returns
`8 * sample_size`. -/
theorem claim_C8_set_sample_size (w : WavFile) (n : Nat)
    (hm : w.mode = .write) (hf : w.headerFrozen = false) (hn : 1 ≤ n) :
    (wav_set_sample_size w n).header.sampleSize = n ∧
    (wav_set_sample_size w n).header.validBits = 8 * n ∧
    wav_get_valid_bits_per_sample (wav_set_sample_size w n) = 8 * n ∧
    wav_errno (wav_set_sample_size w n) = .ok := by
  unfold wav_set_sample_size wav_set_core
  simp [hm, hf, hn, wav_get_valid_bits_per_sample, wav_errno]

/-- Witness for C8: setting a 3-byte sample size on a fresh write session. -/
theorem claim_C8_witness :
    (wav_set_sample_size (sessionForWrite defaultHeader) 3).header.sampleSize = 3 ∧
    (wav_set_sample_size (sessionForWrite defaultHeader) 3).header.validBits = 24 ∧
    wav_get_valid_bits_per_sample (wav_set_sample_size (sessionForWrite defaultHeader) 3) = 24 ∧
    wav_errno (wav_set_sample_size (sessionForWrite defaultHeader) 3) = .ok :=
  claim_C8_set_sample_size (sessionForWrite defaultHeader) 3 (by decide) (by decide) (by decide)

/-- Claim C5: after the first successful sample write on a write session the
header is frozen: along every subsequent chain of API calls the five
header-mutating setters fail with `WAV_ERR_MODE` and leave the header model
unchanged, and the header emitted at close is the Header Model as of the
moment of that first write. -/
theorem claim_C5_header_frozen (w : WavFile) (bufs : List (List Nat)) (count : Nat)
    (hm : w.mode = .write) (hcount : 0 < count)
    (hsucc : (wav_write w bufs count).2 = count) :
    (wav_write w bufs count).1.header = w.header ∧
    (wav_write w bufs count).1.headerFrozen = true ∧
    ∀ w2, Relation.ReflTransGen ApiStep (wav_write w bufs count).1 w2 →
      w2.header = w.header ∧
      (∀ f, (wav_set_format w2 f).header = w2.header ∧
        wav_errno (wav_set_format w2 f) = .mode) ∧
      (∀ n, (wav_set_num_channels w2 n).header = w2.header ∧
        wav_errno (wav_set_num_channels w2 n) = .mode) ∧
      (∀ r, (wav_set_sample_rate w2 r).header = w2.header ∧
        wav_errno (wav_set_sample_rate w2 r) = .mode) ∧
      (∀ b, (wav_set_valid_bits_per_sample w2 b).header = w2.header ∧
        wav_errno (wav_set_valid_bits_per_sample w2 b) = .mode) ∧
      (∀ n, (wav_set_sample_size w2 n).header = w2.header ∧
        wav_errno (wav_set_sample_size w2 n) = .mode) ∧
      wav_close w2 = headerBytes w.header w2.dataLen ++ w2.dataBytes := by
  obtain ⟨hfz, hhd, hmd⟩ := write_success hcount hsucc
  refine ⟨hhd, hfz, ?_⟩
  intro w2 hrt
  have hinv : w2.mode = .write ∧ w2.headerFrozen = true ∧
      w2.header = (wav_write w bufs count).1.header := by
    induction hrt with
    | refl => exact ⟨by rw [hmd, hm], hfz, rfl⟩
    | tail hr st ih =>
        obtain ⟨m1, f1, hh1⟩ := ih
        obtain ⟨m2, f2, hh2⟩ := step_preserves_frozen st m1 f1
        exact ⟨m2, f2, hh2.trans hh1⟩
  obtain ⟨hm2, hf2, hh2⟩ := hinv
  have hh2' : w2.header = w.header := hh2.trans hhd
  refine ⟨hh2', ?_, ?_, ?_, ?_, ?_, ?_⟩
  · intro f
    rw [wav_set_format, setter_frozen w2 _ _ _ hm2 hf2]
    exact ⟨rfl, rfl⟩
  · intro n
    rw [wav_set_num_channels, setter_frozen w2 _ _ _ hm2 hf2]
    exact ⟨rfl, rfl⟩
  · intro r
    rw [wav_set_sample_rate, setter_frozen w2 _ _ _ hm2 hf2]
    exact ⟨rfl, rfl⟩
  · intro b
    rw [wav_set_valid_bits_per_sample, setter_frozen w2 _ _ _ hm2 hf2]
    exact ⟨rfl, rfl⟩
  · intro n
    rw [wav_set_sample_size, setter_frozen w2 _ _ _ hm2 hf2]
    exact ⟨rfl, rfl⟩
  · rw [wav_close, hh2']

/-- Witness for C5: one successful stereo PCM write on a fresh session; the
setters on the resulting session (reached by the empty chain of subsequent
calls) fail with `WAV_ERR_MODE` and leave the header unchanged. -/
theorem claim_C5_witness :
    (wav_write (sessionForWrite defaultHeader) [[1], [2]] 1).1.header =
      (sessionForWrite defaultHeader).header ∧
    (wav_write (sessionForWrite defaultHeader) [[1], [2]] 1).1.headerFrozen = true ∧
    (wav_set_format (wav_write (sessionForWrite defaultHeader) [[1], [2]] 1).1 3).header =
      (wav_write (sessionForWrite defaultHeader) [[1], [2]] 1).1.header ∧
    wav_errno
      (wav_set_format (wav_write (sessionForWrite defaultHeader) [[1], [2]] 1).1 3) = .mode ∧
    wav_errno
      (wav_set_sample_size (wav_write (sessionForWrite defaultHeader) [[1], [2]] 1).1 2) = .mode :=
  ⟨(claim_C5_header_frozen (sessionForWrite defaultHeader) [[1], [2]] 1 (by decide) (by decide)
      (by decide)).1,
   (claim_C5_header_frozen (sessionForWrite defaultHeader) [[1], [2]] 1 (by decide) (by decide)
      (by decide)).2.1,
   (((claim_C5_header_frozen (sessionForWrite defaultHeader) [[1], [2]] 1 (by decide) (by decide)
      (by decide)).2.2 _ Relation.ReflTransGen.refl).2.1 3).1,
   (((claim_C5_header_frozen (sessionForWrite defaultHeader) [[1], [2]] 1 (by decide) (by decide)
      (by decide)).2.2 _ Relation.ReflTransGen.refl).2.1 3).2,
   (((claim_C5_header_frozen (sessionForWrite defaultHeader) [[1], [2]] 1 (by decide) (by decide)
      (by decide)).2.2 _ Relation.ReflTransGen.refl).2.2.2.2.2.1 2).2⟩

/-- Claim C6: on a read session of a codec-supported format, seeking to a
frame index beyond the total frame count and then reading returns 0 frames,
sets the EOF flag, and does not latch an error. -/
theorem claim_C6_seek_beyond_eof (w : WavFile) (idx count : Nat)
    (hm : w.mode = .read) (hcs : codecSupported w.header = true)
    (hidx : wav_get_length w < idx) (hc : 0 < count) :
    (wav_seek w (idx : Int) 0).2 = 0 ∧
    (wav_read (wav_seek w (idx : Int) 0).1 w.header.numChannels count).2.1 = 0 ∧
    wav_eof (wav_read (wav_seek w (idx : Int) 0).1 w.header.numChannels count).1 ≠ 0 ∧
    wav_error (wav_read (wav_seek w (idx : Int) 0).1 w.header.numChannels count).1 = 0 := by
  have hseek : wav_seek w (idx : Int) 0 =
      ({w with pos := wav_get_length w, eofFlag := false, err := .ok}, 0) := by
    unfold wav_seek
    simp [hm]
    rw [if_neg (by omega)]
    simp
    omega
  rw [hseek]
  refine ⟨rfl, ?_, ?_, ?_⟩
  · unfold wav_read
    simp [hm, hcs, wav_get_length]
  · unfold wav_read wav_eof
    simp [hm, hcs, wav_get_length]
  · unfold wav_read wav_error
    simp [hm, hcs, wav_get_length]

/-- Witness for C6: a concrete one-frame mono PCM read session, seeking to
frame 5 and reading one frame. -/
theorem claim_C6_witness :
    (wav_seek ⟨.read, ⟨1, 1, 8000, 1, 8, 0, 0⟩, [7], 1, 0, false, .ok, false⟩ (5 : Int) 0).2 = 0 ∧
    (wav_read (wav_seek ⟨.read, ⟨1, 1, 8000, 1, 8, 0, 0⟩, [7], 1, 0, false, .ok, false⟩
      (5 : Int) 0).1 1 1).2.1 = 0 ∧
    wav_eof (wav_read (wav_seek ⟨.read, ⟨1, 1, 8000, 1, 8, 0, 0⟩, [7], 1, 0, false, .ok, false⟩
      (5 : Int) 0).1 1 1).1 ≠ 0 ∧
    wav_error (wav_read (wav_seek ⟨.read, ⟨1, 1, 8000, 1, 8, 0, 0⟩, [7], 1, 0, false, .ok, false⟩
      (5 : Int) 0).1 1 1).1 = 0 :=
  claim_C6_seek_beyond_eof ⟨.read, ⟨1, 1, 8000, 1, 8, 0, 0⟩, [7], 1, 0, false, .ok, false⟩ 5 1
    (by decide) (by decide) (by decide) (by decide)

lemma extensible_unsupported (h : WavHeader) (hext : h.format = 0xfffe) :
    codecSupported h = false := by
  simp [codecSupported, hext]

/-- Claim C9: on a session whose configured format is EXTENSIBLE the block
read/write API transfers no frames and latches `WAV_ERR_FORMAT`; a
channel-buffer list whose length does not match the configured channel count
instead latches `WAV_ERR_PARAM`. -/
theorem claim_C9_extensible_rejected (w : WavFile) (bufs : List (List Nat))
    (nbufs count : Nat) :
    (w.mode = .read → nbufs = w.header.numChannels → w.header.format = 0xfffe →
      (wav_read w nbufs count).2.1 = 0 ∧ (wav_read w nbufs count).2.2 = [] ∧
      wav_errno (wav_read w nbufs count).1 = .format) ∧
    (w.mode = .write → bufs.length = w.header.numChannels → w.header.format = 0xfffe →
      (wav_write w bufs count).2 = 0 ∧ wav_errno (wav_write w bufs count).1 = .format) ∧
    (w.mode = .read → nbufs ≠ w.header.numChannels →
      (wav_read w nbufs count).2.1 = 0 ∧ wav_errno (wav_read w nbufs count).1 = .param) ∧
    (w.mode = .write → bufs.length ≠ w.header.numChannels →
      (wav_write w bufs count).2 = 0 ∧ wav_errno (wav_write w bufs count).1 = .param) := by
  refine ⟨?_, ?_, ?_, ?_⟩
  · intro hm hnb hext
    unfold wav_read
    simp [hm, hnb, extensible_unsupported w.header hext, wav_errno]
  · intro hm hnb hext
    unfold wav_write
    simp [hm, hnb, extensible_unsupported w.header hext, wav_errno]
  · intro hm hnb
    unfold wav_read
    simp [hm, hnb, wav_errno]
  · intro hm hnb
    unfold wav_write
    simp [hm, hnb, wav_errno]

/-- Witness for C9 at concrete extensible read and write sessions. -/
theorem claim_C9_witness :
    ((wav_read ⟨.read, ⟨0xfffe, 2, 8000, 2, 16, 0, 1⟩, [], 0, 0, false, .ok, false⟩ 2 1).2.1 = 0 ∧
     (wav_read ⟨.read, ⟨0xfffe, 2, 8000, 2, 16, 0, 1⟩, [], 0, 0, false, .ok, false⟩ 2 1).2.2 = [] ∧
     wav_errno (wav_read ⟨.read, ⟨0xfffe, 2, 8000, 2, 16, 0, 1⟩, [], 0, 0, false, .ok, false⟩
       2 1).1 = .format) ∧
    ((wav_read ⟨.read, ⟨0xfffe, 2, 8000, 2, 16, 0, 1⟩, [], 0, 0, false, .ok, false⟩ 3 1).2.1 = 0 ∧
     wav_errno (wav_read ⟨.read, ⟨0xfffe, 2, 8000, 2, 16, 0, 1⟩, [], 0, 0, false, .ok, false⟩
       3 1).1 = .param) :=
  ⟨(claim_C9_extensible_rejected
      ⟨.read, ⟨0xfffe, 2, 8000, 2, 16, 0, 1⟩, [], 0, 0, false, .ok, false⟩ [] 2 1).1
      (by decide) (by decide) (by decide),
   (claim_C9_extensible_rejected
      ⟨.read, ⟨0xfffe, 2, 8000, 2, 16, 0, 1⟩, [], 0, 0, false, .ok, false⟩ [] 3 1).2.2.1
      (by decide) (by decide)⟩

/-- Counterexample to C3 as stated: opening a source whose underlying device
fails on the very first read returns a non-null session whose latched error
is `WAV_ERR_OS`, not `WAV_ERR_FORMAT`. -/
theorem claim_C3_counterexample :
    (wav_open true ⟨[0], some 0⟩ .read).map wav_errno = some .os ∧
    WavErr.os ≠ WavErr.format := by
  constructor
  · rfl
  · decide

/-- Claim C3 (amended): `wav_open` returns null exactly when allocation
fails; every other open-time failure returns a non-null session whose
latched error is the failure's own non-OK code — `WAV_ERR_FORMAT` for a
malformed container (in particular one whose `WAVE` tag mismatches),
`WAV_ERR_OS` for an underlying I/O failure. -/
theorem claim_C3_open_null_iff_alloc :
    (∀ (src : ByteSrc) (m : WavMode), wav_open false src m = none) ∧
    (∀ (src : ByteSrc) (m : WavMode), wav_open true src m = some (openedSession src m)) ∧
    (∀ (src : ByteSrc) (e : WavErr), parseWav src = .error e →
      wav_errno (openedSession src .read) = e ∧ e ≠ .ok) ∧
    (∀ src : ByteSrc, waveMismatch src = true →
      wav_errno (openedSession src .read) = .format) := by
  refine ⟨fun src m => rfl, fun src m => rfl, ?_, ?_⟩
  · intro src e hp
    constructor
    · unfold openedSession
      rw [hp]
      rfl
    · rcases (parse_err_shape hp).1 with h1 | h1 <;> simp [h1]
  · intro src hwm
    have hp : parseWav src = .error .format :=
      (parse_format_iff src).mpr (by simp [formatBad, hwm])
    unfold openedSession
    rw [hp]
    rfl

/-- Witness for the amended C3 at concrete sources: a failed allocation, a
successful allocation, and a source lacking the `WAVE` tag. -/
theorem claim_C3_witness :
    wav_open false ⟨[], none⟩ .read = none ∧
    wav_open true ⟨[], none⟩ .write = some (openedSession ⟨[], none⟩ .write) ∧
    wav_errno (openedSession ⟨[0x52, 0x49, 0x46, 0x46, 0, 0, 0, 0, 0, 0, 0, 0], none⟩ .read)
      = .format :=
  ⟨claim_C3_open_null_iff_alloc.1 ⟨[], none⟩ .read,
   claim_C3_open_null_iff_alloc.2.1 ⟨[], none⟩ .write,
   claim_C3_open_null_iff_alloc.2.2.2 ⟨[0x52, 0x49, 0x46, 0x46, 0, 0, 0, 0, 0, 0, 0, 0], none⟩
     (by decide)⟩

/-- Claim C2: container parsing fails with `WAV_ERR_FORMAT` exactly when the
RIFF or WAVE tag mismatches, the `fmt ` chunk is absent or its body shorter
than required for the declared format, the format code is unrecognized, or
the `data` chunk is absent; every parse error is `FORMAT` or `OS`, and `OS`
arises only from an underlying read failure; on success the total frame
count is the data chunk length divided by block align (floor, remainder
ignored). -/
theorem claim_C2_parser_errors :
    (∀ s : ByteSrc, parseWav s = .error .format ↔
      (riffMismatch s || waveMismatch s || fmtMissing s || fmtShort s ||
        fmtUnknown s || dataMissing s) = true) ∧
    (∀ (s : ByteSrc) (e : WavErr), parseWav s = .error e → e = .format ∨ e = .os) ∧
    (∀ (s : ByteSrc) (e : WavErr), parseWav s = .error e → e = .os → s.ioFailAt ≠ none) ∧
    (∀ (s : ByteSrc) (p : ParsedWav), parseWav s = .ok p →
      wav_get_length (openedSession s .read) = p.dataLen / blockAlign p.header) := by
  refine ⟨?_, fun s e hp => (parse_err_shape hp).1, fun s e hp => (parse_err_shape hp).2, ?_⟩
  · intro s
    have := parse_format_iff s
    simpa [formatBad] using this
  · intro s p hp
    unfold openedSession
    rw [hp]
    rfl

/-- Witness for C2: a concrete source that is not a RIFF container parses to
`WAV_ERR_FORMAT`, by the characterization. -/
theorem claim_C2_witness : parseWav ⟨[], none⟩ = .error .format :=
  (claim_C2_parser_errors.1 ⟨[], none⟩).mpr (by decide)

/-- Claim C1: for every codec-supported configuration, writing `count` frames
to a fresh write session, closing, and opening the emitted file for reading
yields a clean session of the same length whose read returns the identical
frames bit-for-bit (samples restricted to representable values, which for
A-law/mu-law means companding-quantized 16-bit linear values); and G.711
expansion composed with compression is the identity on already-quantized
input. -/
theorem claim_C1_roundtrip :
    (∀ (h : WavHeader) (bufs : List (List Nat)) (count : Nat),
      codecSupported h = true →
      1 ≤ h.numChannels → h.numChannels < 65536 →
      h.sampleRate < 4294967296 →
      bufs.length = h.numChannels →
      (∀ b ∈ bufs, b.length = count) →
      (∀ b ∈ bufs, ∀ v ∈ b, sampleValid h.format h.sampleSize v = true) →
      count * blockAlign h < 4294967296 →
      (wav_write (sessionForWrite h) bufs count).2 = count ∧
      wav_open true ⟨wav_close (wav_write (sessionForWrite h) bufs count).1, none⟩ .read
        = some (openedSession
            ⟨wav_close (wav_write (sessionForWrite h) bufs count).1, none⟩ .read) ∧
      wav_errno (openedSession
        ⟨wav_close (wav_write (sessionForWrite h) bufs count).1, none⟩ .read) = .ok ∧
      wav_get_length (openedSession
        ⟨wav_close (wav_write (sessionForWrite h) bufs count).1, none⟩ .read) = count ∧
      (wav_read (openedSession
        ⟨wav_close (wav_write (sessionForWrite h) bufs count).1, none⟩ .read)
        h.numChannels count).2.1 = count ∧
      (wav_read (openedSession
        ⟨wav_close (wav_write (sessionForWrite h) bufs count).1, none⟩ .read)
        h.numChannels count).2.2 = bufs) ∧
    (∀ b, b < 256 → alawExpand (alawCompress (alawExpand b)) = alawExpand b ∧
      mulawExpand (mulawCompress (mulawExpand b)) = mulawExpand b) :=
  ⟨fun h bufs count hcs hch1 hch2 hr2 hbl hN hv hd32 =>
    wav_roundtrip h bufs count hcs hch1 hch2 hr2 hbl hN hv hd32,
   fun b hb => ⟨alaw_idem b hb, mulaw_idem b hb⟩⟩

/-- The header of the C1 witness: 16-bit stereo PCM at 44100 Hz. -/
def c1hdr : WavHeader := ⟨1, 2, 44100, 2, 16, 0, 0⟩

/-- The per-channel sample buffers of the C1 witness. -/
def c1bufs : List (List Nat) := [[1, 2], [65535, 0]]

/-- Witness for C1: a concrete two-frame stereo PCM round trip, and the
companding identity at the concrete byte 129. -/
theorem claim_C1_witness :
    ((wav_write (sessionForWrite c1hdr) c1bufs 2).2 = 2 ∧
     wav_open true ⟨wav_close (wav_write (sessionForWrite c1hdr) c1bufs 2).1, none⟩ .read
       = some (openedSession
           ⟨wav_close (wav_write (sessionForWrite c1hdr) c1bufs 2).1, none⟩ .read) ∧
     wav_errno (openedSession
       ⟨wav_close (wav_write (sessionForWrite c1hdr) c1bufs 2).1, none⟩ .read) = .ok ∧
     wav_get_length (openedSession
       ⟨wav_close (wav_write (sessionForWrite c1hdr) c1bufs 2).1, none⟩ .read) = 2 ∧
     (wav_read (openedSession
       ⟨wav_close (wav_write (sessionForWrite c1hdr) c1bufs 2).1, none⟩ .read)
       c1hdr.numChannels 2).2.1 = 2 ∧
     (wav_read (openedSession
       ⟨wav_close (wav_write (sessionForWrite c1hdr) c1bufs 2).1, none⟩ .read)
       c1hdr.numChannels 2).2.2 = c1bufs) ∧
    (alawExpand (alawCompress (alawExpand 129)) = alawExpand 129 ∧
     mulawExpand (mulawCompress (mulawExpand 129)) = mulawExpand 129) :=
  ⟨claim_C1_roundtrip.1 c1hdr c1bufs 2 (by decide) (by decide) (by decide) (by decide)
     (by decide) (by decide) (by decide) (by decide),
   claim_C1_roundtrip.2 129 (by decide)⟩
